import Mathlib

/-!
Shallow embedding of the Daggerheart character-builder core
(`src/frontend/src/types/card.ts`, `src/frontend/src/stores/character.ts`,
the richer store variant in `src/unnamed/part_001`, the save loader in
`src/frontend/src/composables/usePrint.ts` and the domain-cap wrapper and
origin/community click handlers in
`src/frontend/src/components/DomainBadge.vue`).

JavaScript `Set<string>` values are modelled as insertion-ordered,
duplicate-free `List String` values (which is exactly what a JS `Set` is:
iteration follows insertion order, and `new Set(array)` keeps the first
occurrence of each element).  Nullable fields are modelled with `Option`.
-/

namespace Daggerheart

/-- Fixed enumerated domain type (`Dominio` in `types/card.ts`). -/
inductive Dominio where
  | arcano | lama | osso | codice
  | grazia | mezzanotte | saggio | splendore | valore
deriving DecidableEq, Repr

/-- Card category (`Categoria` in `types/card.ts`): `origine`, `comunità`, `dominio`. -/
inductive Categoria where
  | origine | comunita | dominio
deriving DecidableEq, Repr

/-- Card subcategory (`Sottocategoria` in `types/card.ts`): `classi` or `abilita` (nullable at use sites). -/
inductive Sottocategoria where
  | classi | abilita
deriving DecidableEq, Repr

/-- Catalog card record (`CardIndex` in `types/card.ts`). -/
structure CardIndex where
  id : String
  nome : String
  categoria : Categoria
  dominio : Option Dominio
  sottocategoria : Option Sottocategoria
  tipo_carta : Option String
  livello : Option Int
  soglia : Option Int
  pagina : Int
  img : String
  json : String
deriving DecidableEq, Repr

/-- Derived class grouping (`ClassInfo` in `types/card.ts`). -/
structure ClassInfo where
  nome : String
  dominio : Dominio
  cards : List CardIndex
  baseCard : Option CardIndex
deriving DecidableEq, Repr

/-- Saved character document (`CharacterSave` in `types/card.ts`). -/
structure CharacterSave where
  version : Nat
  exportDate : String
  characterName : String
  className : String
  selectedSubclass : Option String
  classCardIds : List String
  selectedDomains : List Dominio
  selectedAbilities : List String
  selectedOrigin : Option String
  selectedCommunity : Option String
deriving DecidableEq, Repr

/-- Mutable selection state of the richer store variant
(`src/unnamed/part_001`): the refs `characterName`, `className`,
`selectedSubclass`, `selectedDomains`, `selectedAbilities`,
`selectedOrigin`, `selectedCommunity`. -/
structure SelectionState where
  characterName : String
  className : Option String
  selectedSubclass : Option String
  selectedDomains : List Dominio
  selectedAbilities : List String
  selectedOrigin : Option String
  selectedCommunity : Option String
deriving DecidableEq, Repr

/-- Mutable selection state of the manual-domain-pick store variant
(`src/frontend/src/stores/character.ts`), which has no `characterName`
and no `selectedSubclass` ref. -/
structure SelectionStateM where
  className : Option String
  selectedDomains : List Dominio
  selectedAbilities : List String
  selectedOrigin : Option String
  selectedCommunity : Option String
deriving DecidableEq, Repr

/-- Initial (empty) state: the ref initializers of the richer store
(also what `reset()` restores). -/
def initialState : SelectionState :=
  { characterName := ""
    className := none
    selectedSubclass := none
    selectedDomains := []
    selectedAbilities := []
    selectedOrigin := none
    selectedCommunity := none }

/-- Helper for `dedupFirst`: keeps the first occurrence of each element,
skipping elements already seen.  Models the construction of a JS `Set`
from an array (`new Set(array)`), which iterates the array and inserts
each element not already present. -/
def dedupFirstAux {α : Type} [DecidableEq α] (seen : List α) : List α → List α
  | [] => []
  | x :: xs =>
    if x ∈ seen then dedupFirstAux seen xs
    else x :: dedupFirstAux (x :: seen) xs

/-- First-occurrence deduplication: the element list of `new Set(array)`
in JS insertion order. -/
def dedupFirst {α : Type} [DecidableEq α] (l : List α) : List α :=
  dedupFirstAux [] l

theorem mem_dedupFirstAux {α : Type} [DecidableEq α] {a : α} :
    ∀ (l seen : List α), a ∈ dedupFirstAux seen l ↔ a ∈ l ∧ a ∉ seen := by
  intro l
  induction l with
  | nil => intro seen; simp [dedupFirstAux]
  | cons x xs ih =>
    intro seen
    by_cases hx : x ∈ seen
    · rw [dedupFirstAux, if_pos hx, ih]
      simp only [List.mem_cons]
      constructor
      · rintro ⟨h1, h2⟩; exact ⟨Or.inr h1, h2⟩
      · rintro ⟨h1 | h1, h2⟩
        · exact absurd hx (h1 ▸ h2)
        · exact ⟨h1, h2⟩
    · rw [dedupFirstAux, if_neg hx]
      constructor
      · intro h
        rcases List.mem_cons.mp h with rfl | h'
        · exact ⟨List.mem_cons_self _ _, hx⟩
        · obtain ⟨h1, h2⟩ := (ih (x :: seen)).mp h'
          exact ⟨List.mem_cons_of_mem _ h1,
            fun hs => h2 (List.mem_cons_of_mem _ hs)⟩
      · rintro ⟨h1, h2⟩
        rcases List.mem_cons.mp h1 with rfl | h1'
        · exact List.mem_cons_self _ _
        · by_cases hax : a = x
          · exact hax ▸ List.mem_cons_self _ _
          · refine List.mem_cons_of_mem _ ((ih (x :: seen)).mpr ⟨h1', fun hs => ?_⟩)
            exact (List.mem_cons.mp hs).elim hax h2

theorem mem_dedupFirst {α : Type} [DecidableEq α] {a : α} {l : List α} :
    a ∈ dedupFirst l ↔ a ∈ l := by
  rw [dedupFirst, mem_dedupFirstAux]
  simp

theorem nodup_dedupFirstAux {α : Type} [DecidableEq α] :
    ∀ (l seen : List α), (dedupFirstAux seen l).Nodup := by
  intro l
  induction l with
  | nil => intro seen; simp [dedupFirstAux]
  | cons x xs ih =>
    intro seen
    by_cases hx : x ∈ seen
    · rw [dedupFirstAux, if_pos hx]; exact ih seen
    · rw [dedupFirstAux, if_neg hx]
      refine List.nodup_cons.mpr ⟨fun hmem => ?_, ih (x :: seen)⟩
      exact ((mem_dedupFirstAux xs (x :: seen)).mp hmem).2 (List.mem_cons_self x seen)

theorem nodup_dedupFirst {α : Type} [DecidableEq α] (l : List α) :
    (dedupFirst l).Nodup :=
  nodup_dedupFirstAux l []

theorem dedupFirstAux_eq_self {α : Type} [DecidableEq α] :
    ∀ (l seen : List α), l.Nodup → (∀ a ∈ l, a ∉ seen) → dedupFirstAux seen l = l := by
  intro l
  induction l with
  | nil => intro seen _ _; rfl
  | cons x xs ih =>
    intro seen hnd hdisj
    rw [dedupFirstAux, if_neg (hdisj x (List.mem_cons_self x xs))]
    congr 1
    refine ih (x :: seen) (List.nodup_cons.mp hnd).2 (fun a ha => ?_)
    intro hs
    rcases List.mem_cons.mp hs with rfl | hs'
    · exact (List.nodup_cons.mp hnd).1 ha
    · exact hdisj a (List.mem_cons_of_mem _ ha) hs'

theorem dedupFirst_eq_self {α : Type} [DecidableEq α] {l : List α}
    (h : l.Nodup) : dedupFirst l = l :=
  dedupFirstAux_eq_self l [] h (by simp)

/-- Subclass name to class name lookup (`SUBCLASS_TO_CLASS` in `types/card.ts`). -/
def SUBCLASS_TO_CLASS (n : String) : Option String :=
  match n with
  | "TROVATORE" => some "Bardo"
  | "ORATORE" => some "Bardo"
  | "SCUOLA DELLA CONOSCENZA" => some "Mago"
  | "SCUOLA DELLA GUERRA" => some "Mago"
  | "EMISSARIO DIVINO" => some "Serafino"
  | "SENTINELLA ALATA" => some "Serafino"
  | "VALOROSO" => some "Guardiano"
  | "VENDICATORE" => some "Guardiano"
  | "CHIAMATA DEL CORAGGIO" => some "Guerriero"
  | "CHIAMATA DELLO STERMINATORE" => some "Guerriero"
  | "FERALE" => some "Ranger"
  | "APRIPISTA" => some "Ranger"
  | "CUSTODE DEGLI ELEMENTI" => some "Druido"
  | "CUSTODE DEL RINNOVAMENTO" => some "Druido"
  | "POTERE ELEMENTALE" => some "Stregone"
  | "POTERE PRIMORDIALE" => some "Stregone"
  | "OMBRA NOTTURNA" => some "Ladro"
  | "LADRO" => some "Ladro"
  | _ => none

/-- Class name to primary domain lookup (`CLASS_DOMAIN_MAP` in `types/card.ts`). -/
def CLASS_DOMAIN_MAP (n : String) : Option Dominio :=
  match n with
  | "Bardo" => some .grazia
  | "Mago" => some .codice
  | "Serafino" => some .splendore
  | "Guardiano" => some .valore
  | "Guerriero" => some .lama
  | "Ranger" => some .osso
  | "Druido" => some .saggio
  | "Stregone" => some .arcano
  | "Ladro" => some .mezzanotte
  | _ => none

/-- Class name to its fixed pair of domains (`CLASS_DOMAINS` in `types/card.ts`),
used by the auto-assign rule variant. -/
def CLASS_DOMAINS (n : String) : Option (Dominio × Dominio) :=
  match n with
  | "Bardo" => some (.grazia, .codice)
  | "Mago" => some (.codice, .splendore)
  | "Serafino" => some (.splendore, .valore)
  | "Guardiano" => some (.valore, .lama)
  | "Guerriero" => some (.lama, .osso)
  | "Ranger" => some (.osso, .saggio)
  | "Druido" => some (.saggio, .arcano)
  | "Stregone" => some (.arcano, .mezzanotte)
  | "Ladro" => some (.mezzanotte, .grazia)
  | _ => none

/-- Class name a class-feature card is grouped under:
`SUBCLASS_TO_CLASS[c.nome] ?? c.nome` in the `classes` computed view. -/
def clsName (c : CardIndex) : String :=
  (SUBCLASS_TO_CLASS c.nome).getD c.nome

/-- Cards with `sottocategoria === 'classi'`, the ones the `classes`
computed view iterates over. -/
def classFeatureCards (cat : List CardIndex) : List CardIndex :=
  cat.filter (fun c => decide (c.sottocategoria = some Sottocategoria.classi))

/-- Derived `classes` computed view: class-feature cards grouped by class
name (first-appearance order, as a JS `Map` preserves insertion order),
each group sorted by `pagina`, with `baseCard` the first card whose
`tipo_carta` is `'privilegio'`, falling back to the first sorted card. -/
def classes (cat : List CardIndex) : List ClassInfo :=
  (dedupFirst ((classFeatureCards cat).map clsName)).map (fun n =>
    let cards := List.insertionSort (fun a b => a.pagina ≤ b.pagina)
      ((classFeatureCards cat).filter (fun c => decide (clsName c = n)))
    { nome := n
      dominio := (CLASS_DOMAIN_MAP n).getD .arcano
      cards := cards
      baseCard :=
        match cards.find? (fun c => decide (c.tipo_carta = some "privilegio")) with
        | some c => some c
        | none => cards.head? })

/-- Derived `activeClass` computed view: `classes.find(c => c.nome === className) ?? null`. -/
def activeClass (cat : List CardIndex) (s : SelectionState) : Option ClassInfo :=
  match s.className with
  | none => none
  | some n => (classes cat).find? (fun c => decide (c.nome = n))

/-- Derived `classCards` computed view of the richer variant: the active
class's cards, narrowed to the selected subclass's cards when a subclass
is selected. -/
def classCards (cat : List CardIndex) (s : SelectionState) : List CardIndex :=
  let all := match activeClass cat s with
    | some ci => ci.cards
    | none => []
  match s.selectedSubclass with
  | some sub => all.filter (fun c => decide (c.nome = sub))
  | none => all

/-- Derived `abilityCards` computed view:
`allCards.filter(c => c.sottocategoria === 'abilita' && selectedDomains.includes(c.dominio))`.
The `includes` test compares the card's nullable `dominio` against the
proper domain values stored in `selectedDomains`, so a `null` domain
never matches. -/
def abilityCards (cat : List CardIndex) (doms : List Dominio) : List CardIndex :=
  cat.filter (fun c =>
    decide (c.sottocategoria = some Sottocategoria.abilita ∧
            c.dominio ∈ doms.map Option.some))

/-- Level bucket key of a card: `c.livello ?? 0` in the `cardsByLevel` loop. -/
def levelKey (c : CardIndex) : Int :=
  c.livello.getD 0

/-- Derived `cardsByLevel` computed view, as the function from a level key
to its bucket: the loop pushes each ability card into the bucket of its
`livello ?? 0`, preserving `abilityCards` order inside the bucket. -/
def cardsByLevel (cat : List CardIndex) (doms : List Dominio) (k : Int) : List CardIndex :=
  (abilityCards cat doms).filter (fun c => decide (levelKey c = k))

/-- Derived `levels` computed view:
`Object.keys(cardsByLevel).map(Number).sort((a, b) => a - b)` — the
distinct bucket keys in ascending numeric order. -/
def levels (cat : List CardIndex) (doms : List Dominio) : List Int :=
  List.insertionSort (· ≤ ·) (dedupFirst ((abilityCards cat doms).map levelKey))

/-- Lookup of a card by id: `allCards.value.find(c => c.id === id)`. -/
def findCard (cat : List CardIndex) (id : String) : Option CardIndex :=
  cat.find? (fun c => decide (c.id = id))

/-- Action `selectClass` of the richer (auto-assign) store variant
(`src/unnamed/part_001` lines 304-310): sets the class, clears subclass
and abilities, and auto-selects the class's two domains from
`CLASS_DOMAINS` (empty list for a name not in the table). -/
def selectClass (s : SelectionState) (nome : String) : SelectionState :=
  { s with
    className := some nome
    selectedSubclass := none
    selectedAbilities := []
    selectedDomains :=
      match CLASS_DOMAINS nome with
      | some p => [p.1, p.2]
      | none => [] }

/-- Action `selectClass` of the manual-pick store variant
(`src/frontend/src/stores/character.ts` lines 81-85): sets the class and
resets domains and abilities to empty. -/
def selectClassM (s : SelectionStateM) (nome : String) : SelectionStateM :=
  { s with
    className := some nome
    selectedDomains := []
    selectedAbilities := [] }

/-- Action `toggleDomain` (identical in both store variants): if the
domain is present, remove its first occurrence (`splice` at `indexOf`)
and delete every selected ability whose card, looked up by id in the
catalog, has that domain; otherwise append the domain unconditionally. -/
def toggleDomain (cat : List CardIndex) (s : SelectionState) (dominio : Dominio) : SelectionState :=
  if dominio ∈ s.selectedDomains then
    { s with
      selectedDomains := s.selectedDomains.erase dominio
      selectedAbilities := s.selectedAbilities.filter
        (fun id => decide (((findCard cat id).bind CardIndex.dominio) ≠ some dominio)) }
  else
    { s with selectedDomains := s.selectedDomains ++ [dominio] }

/-- UI-level cap on selected domains (`MAX_DOMAINS` in `DomainBadge.vue`). -/
def MAX_DOMAINS : Nat := 2

/-- View-layer wrapper around the store's `toggleDomain`
(`DomainBadge.vue` lines 153-159): calls the store action only when the
domain is already selected or fewer than `MAX_DOMAINS` are selected. -/
def viewToggleDomain (cat : List CardIndex) (s : SelectionState) (d : Dominio) : SelectionState :=
  if d ∈ s.selectedDomains then toggleDomain cat s d
  else if s.selectedDomains.length < MAX_DOMAINS then toggleDomain cat s d
  else s

/-- Action `selectOrigin` (both variants): a direct set of the ref. -/
def selectOrigin (s : SelectionState) (id : Option String) : SelectionState :=
  { s with selectedOrigin := id }

/-- Action `selectCommunity` (both variants): a direct set of the ref. -/
def selectCommunity (s : SelectionState) (id : Option String) : SelectionState :=
  { s with selectedCommunity := id }

/-- Origin card click handler (`DomainBadge.vue` line 633):
`store.selectOrigin(store.selectedOrigin === card.id ? null : card.id)`. -/
def clickOrigin (s : SelectionState) (id : String) : SelectionState :=
  selectOrigin s (if s.selectedOrigin = some id then none else some id)

/-- Community card click handler (`DomainBadge.vue` line 800):
`store.selectCommunity(store.selectedCommunity === card.id ? null : card.id)`. -/
def clickCommunity (s : SelectionState) (id : String) : SelectionState :=
  selectCommunity s (if s.selectedCommunity = some id then none else some id)

/-- Serialization `toSave` of the richer store variant
(`src/unnamed/part_001` lines 366-379).  The export timestamp
(`new Date().toISOString()`) is passed in as `now`. -/
def toSave (cat : List CardIndex) (now : String) (s : SelectionState) : CharacterSave :=
  { version := 1
    exportDate := now
    characterName := s.characterName
    className := s.className.getD ""
    selectedSubclass := s.selectedSubclass
    classCardIds := (classCards cat s).map CardIndex.id
    selectedDomains := s.selectedDomains
    selectedAbilities := s.selectedAbilities
    selectedOrigin := s.selectedOrigin
    selectedCommunity := s.selectedCommunity }

/-- Deserialization `fromSave` of the richer store variant
(`src/unnamed/part_001` lines 381-389): installs the document's fields
verbatim (`?? ''` and `?? null` fallbacks are identities on the typed
document), rebuilding the ability `Set` from the array. -/
def fromSave (save : CharacterSave) : SelectionState :=
  { characterName := save.characterName
    className := some save.className
    selectedSubclass := save.selectedSubclass
    selectedDomains := save.selectedDomains
    selectedAbilities := dedupFirst save.selectedAbilities
    selectedOrigin := save.selectedOrigin
    selectedCommunity := save.selectedCommunity }

/-- JSON value, for modelling the parsed content of an uploaded save file. -/
inductive Json where
  | null : Json
  | bool : Bool → Json
  | num : Int → Json
  | str : String → Json
  | arr : List Json → Json
  | obj : List (String × Json) → Json

/-- Field access on a JSON value: `some` the field's value when the value
is an object carrying the key, `none` otherwise. -/
def Json.getField (j : Json) (k : String) : Option Json :=
  match j with
  | .obj kvs => (kvs.find? (fun p => decide (p.1 = k))).map Prod.snd
  | _ => none

/-- Whether a JSON value is an array. -/
def Json.isArr (j : Json) : Bool :=
  match j with
  | .arr _ => true
  | _ => false

/-- Modelled from the spec: the structural validation the spec ascribes to
deserialization — the document must carry the required fields
`className`, and `selectedDomains` and `selectedAbilities` as arrays.
No such check exists anywhere in the source; this definition exists only
to be compared against the behavior of `loadSave`. -/
def specRequiredFieldsOk (j : Json) : Bool :=
  (j.getField "className").isSome &&
  ((j.getField "selectedDomains").map Json.isArr).getD false &&
  ((j.getField "selectedAbilities").map Json.isArr).getD false

/-- Save-file reader `loadSave` (`usePrint.ts` lines 157-170 and 248-261):
the uploaded file's text is fed to `JSON.parse`; the parse outcome is
modelled as `Option Json` (`none` when the text is not valid JSON, in
which case the promise rejects with `'File JSON non valido'`).  On
success the parsed value is resolved verbatim — no structural check. -/
def loadSave (doc : Option Json) : Except String Json :=
  match doc with
  | some j => Except.ok j
  | none => Except.error "File JSON non valido"

/-- Upload handler flow (`onLoadFile` in `DomainBadge.vue` lines 211-220,
`onFileLoad` in `src/unnamed/part_004` lines 40-50): `store.fromSave` is
invoked only when `loadSave` resolves; on rejection the `catch` branch
reports the error and the selection state is left untouched.  The
resolved document (when the upload is a valid-JSON `CharacterSave`) is
modelled as `Option CharacterSave`. -/
def onLoadFile (s : SelectionState) (doc : Option CharacterSave) : SelectionState :=
  match doc with
  | some save => fromSave save
  | none => s

/-! Theorems settling the claims. -/

/-- Example state for the C1 witness: a state with a selected class. -/
def exStateRT : SelectionState :=
  { characterName := "Pippo"
    className := some "Bardo"
    selectedSubclass := some "TROVATORE"
    selectedDomains := [.grazia, .codice]
    selectedAbilities := ["a1", "b2"]
    selectedOrigin := some "o1"
    selectedCommunity := none }

/-- C1 (counterexample): the round trip is NOT the identity on the empty
initial state — `toSave` writes `className.value ?? ''`, turning the
initial `null` class into `''`, and `fromSave` installs `''` verbatim,
so the reloaded state differs from the initial state on `className`. -/
theorem roundTrip_fails_on_empty_state :
    fromSave (toSave [] "2025-01-01T00:00:00.000Z" initialState) ≠ initialState ∧
    (fromSave (toSave [] "2025-01-01T00:00:00.000Z" initialState)).className = some "" ∧
    initialState.className = none := by
  exact ⟨by decide, rfl, rfl⟩

/-- C1 (amended): for every catalog, export timestamp and selection state
whose `className` is non-null (and whose ability set is, as a JS `Set`
guarantees, duplicate-free), `fromSave (toSave s)` reproduces `s`
exactly on every field; `exportDate` is regenerated and not part of the
state.  Only the empty-class case fails (see the counterexample). -/
theorem roundTrip_modulo_exportDate (cat : List CardIndex) (now : String)
    (s : SelectionState) (h1 : s.className ≠ none)
    (h2 : s.selectedAbilities.Nodup) :
    fromSave (toSave cat now s) = s := by
  obtain ⟨cn, cl, ss, sd, sa, so, sc⟩ := s
  cases cl with
  | none => exact absurd rfl h1
  | some n =>
    simp only [toSave, fromSave, Option.getD_some]
    rw [dedupFirst_eq_self h2]

/-- C1 (witness): the round-trip theorem applied to a concrete state. -/
theorem roundTrip_modulo_exportDate_witness :
    exStateRT.className ≠ none ∧ exStateRT.selectedAbilities.Nodup ∧
    fromSave (toSave [] "2025-01-01T00:00:00.000Z" exStateRT) = exStateRT :=
  ⟨by decide, by decide,
    roundTrip_modulo_exportDate [] "2025-01-01T00:00:00.000Z" exStateRT
      (by decide) (by decide)⟩

/-- C2 (counterexample): the store-level `toggleDomain` enforces no cap —
from the empty state, toggling three distinct domains leaves THREE
selected domains, and in particular the third toggle (absent domain
with two already selected) appended instead of no-opping. -/
theorem toggleDomain_exceeds_two_domains :
    ((List.foldl (toggleDomain []) initialState
        [Dominio.arcano, Dominio.lama, Dominio.osso]).selectedDomains).length = 3 := by
  decide

theorem viewToggleDomain_length_le (cat : List CardIndex) (s : SelectionState)
    (d : Dominio) (h : s.selectedDomains.length ≤ MAX_DOMAINS) :
    ((viewToggleDomain cat s d).selectedDomains).length ≤ MAX_DOMAINS := by
  unfold viewToggleDomain
  by_cases hd : d ∈ s.selectedDomains
  · rw [if_pos hd]
    unfold toggleDomain
    rw [if_pos hd]
    simp only
    rw [List.length_erase_of_mem hd]
    omega
  · rw [if_neg hd]
    by_cases hl : s.selectedDomains.length < MAX_DOMAINS
    · rw [if_pos hl]
      unfold toggleDomain
      rw [if_neg hd]
      simp only [List.length_append, List.length_cons, List.length_nil]
      omega
    · rw [if_neg hl]
      exact h

/-- C2 (amended): the 2-domain cap is enforced by the view-layer wrapper
(`DomainBadge.vue`), which invokes the store action only when the domain
is already selected or fewer than `MAX_DOMAINS = 2` are selected: from
any state already satisfying the cap, every sequence of view-layer
toggles keeps `selectedDomains.length ≤ 2`.  The store-level
`toggleDomain` itself appends unconditionally (see the counterexample). -/
theorem viewToggleDomain_cap_invariant (cat : List CardIndex) (s : SelectionState)
    (h : s.selectedDomains.length ≤ MAX_DOMAINS) (ds : List Dominio) :
    ((ds.foldl (viewToggleDomain cat) s).selectedDomains).length ≤ MAX_DOMAINS := by
  induction ds generalizing s with
  | nil => exact h
  | cons d ds ih => exact ih _ (viewToggleDomain_length_le cat s d h)

/-- C2 (witness): the cap invariant applied to a concrete toggle sequence. -/
theorem viewToggleDomain_cap_invariant_witness :
    initialState.selectedDomains.length ≤ MAX_DOMAINS ∧
    ((List.foldl (viewToggleDomain []) initialState
        [Dominio.arcano, Dominio.lama, Dominio.osso]).selectedDomains).length ≤ MAX_DOMAINS :=
  ⟨by decide,
    viewToggleDomain_cap_invariant [] initialState (by decide)
      [Dominio.arcano, Dominio.lama, Dominio.osso]⟩

/-- Example catalog card for the C3 witness: an ability of domain `lama`. -/
def exCard3 : CardIndex :=
  { id := "a1", nome := "A1", categoria := .dominio, dominio := some .lama
    sottocategoria := some .abilita, tipo_carta := none, livello := some 1
    soglia := none, pagina := 1, img := "a1.png", json := "a1.json" }

/-- Example state for the C3 witness. -/
def exState3 : SelectionState :=
  { initialState with
    selectedDomains := [.arcano, .lama]
    selectedAbilities := ["a1"] }

/-- C3 (confirmed): removing a selected domain cascade-removes its
abilities — after `toggleDomain d` on a state where `d` is selected, no
surviving id in `selectedAbilities` resolves (by id lookup in the
catalog) to a card whose domain is `d`. -/
theorem toggleDomain_cascade_removes_domain_abilities
    (cat : List CardIndex) (s : SelectionState) (d : Dominio)
    (hd : d ∈ s.selectedDomains) (id : String)
    (hid : id ∈ (toggleDomain cat s d).selectedAbilities)
    (c : CardIndex) (hc : findCard cat id = some c) :
    c.dominio ≠ some d := by
  unfold toggleDomain at hid
  rw [if_pos hd] at hid
  simp only at hid
  have hpred := of_decide_eq_true (List.mem_filter.mp hid).2
  rw [hc] at hpred
  exact hpred

/-- C3 (witness): the cascade theorem applied to a concrete state where
the ability `a1` (domain `lama`) survives the removal of `arcano`. -/
theorem toggleDomain_cascade_witness :
    Dominio.arcano ∈ exState3.selectedDomains ∧
    exCard3.dominio ≠ some Dominio.arcano :=
  ⟨by decide,
    toggleDomain_cascade_removes_domain_abilities [exCard3] exState3 .arcano
      (by decide) "a1" (by decide) exCard3 (by decide)⟩

/-- C4 (counterexample): `loadSave` resolves a valid-JSON document even
when every required field is missing — the empty object `{}` parses,
fails the validation the spec describes, and is still accepted. -/
theorem loadSave_accepts_missing_required_fields :
    loadSave (some (Json.obj [])) = Except.ok (Json.obj []) ∧
    specRequiredFieldsOk (Json.obj []) = false :=
  ⟨rfl, rfl⟩

/-- C4 (amended): deserialization of an uploaded save fails (with the
error `'File JSON non valido'`) exactly when the document is not valid
JSON; no required-field validation is performed, and on failure the
selection state is left unchanged because `fromSave` is only invoked on
a successfully parsed document. -/
theorem loadSave_fails_iff_invalid_json :
    (∀ j, loadSave (some j) = Except.ok j) ∧
    loadSave none = Except.error "File JSON non valido" ∧
    (∀ s, onLoadFile s none = s) :=
  ⟨fun _ => rfl, rfl, fun _ => rfl⟩

/-- Example state for the C5 counterexample: origin and community set. -/
def exState5 : SelectionState :=
  { initialState with selectedOrigin := some "o1", selectedCommunity := some "c1" }

/-- C5 (counterexample): the store action `selectOrigin` has NO toggle
semantics — calling it with the already-selected id keeps the id
instead of clearing the field (and likewise for `selectCommunity`). -/
theorem selectOrigin_same_id_not_cleared :
    (selectOrigin exState5 (some "o1")).selectedOrigin = some "o1" ∧
    (selectOrigin exState5 (some "o1")).selectedOrigin ≠ none ∧
    (selectCommunity exState5 (some "c1")).selectedCommunity = some "c1" :=
  ⟨rfl, by decide, rfl⟩

/-- C5 (amended): `selectOrigin` and `selectCommunity` are direct sets of
the field; the toggle semantics lives in the UI click handlers, which
pass `null` when the clicked card is already selected — so the
click-level operation toggles: clicking the selected id clears the
field, clicking any other id selects it. -/
theorem originCommunity_selection_semantics :
    (∀ s id, (selectOrigin s id).selectedOrigin = id) ∧
    (∀ s id, (selectCommunity s id).selectedCommunity = id) ∧
    (∀ s id, (clickOrigin s id).selectedOrigin =
        if s.selectedOrigin = some id then none else some id) ∧
    (∀ s id, (clickCommunity s id).selectedCommunity =
        if s.selectedCommunity = some id then none else some id) :=
  ⟨fun _ _ => rfl, fun _ _ => rfl, fun _ _ => rfl, fun _ _ => rfl⟩

/-- C6 (confirmed): `selectClass` sets the class, clears the subclass and
the abilities, and resets `selectedDomains` to the class's default set:
the fixed pair from `CLASS_DOMAINS` in the auto-assign variant (empty
for a name not in the table), always empty in the manual-pick variant
(whose state has no subclass field to clear). -/
theorem selectClass_clears_and_resets_domains :
    (∀ (s : SelectionState) (n : String),
        (selectClass s n).className = some n ∧
        (selectClass s n).selectedSubclass = none ∧
        (selectClass s n).selectedAbilities = [] ∧
        (selectClass s n).selectedDomains =
          (match CLASS_DOMAINS n with
           | some p => [p.1, p.2]
           | none => [])) ∧
    (selectClass initialState "Bardo").selectedDomains = [Dominio.grazia, Dominio.codice] ∧
    (∀ (s : SelectionStateM) (n : String),
        (selectClassM s n).className = some n ∧
        (selectClassM s n).selectedDomains = [] ∧
        (selectClassM s n).selectedAbilities = []) :=
  ⟨fun _ _ => ⟨rfl, rfl, rfl, rfl⟩, rfl, fun _ _ => ⟨rfl, rfl, rfl⟩⟩

/-- Example catalog card for the C8 witness. -/
def exCard8 : CardIndex :=
  { id := "a2", nome := "A2", categoria := .dominio, dominio := some .lama
    sottocategoria := some .abilita, tipo_carta := none, livello := some 2
    soglia := none, pagina := 2, img := "a2.png", json := "a2.json" }

/-- C8 (confirmed): every card in the domain-filtered `abilityCards` view
has a non-null domain belonging to the selected domains — a card whose
`dominio` is null is excluded rather than causing a failure (the
derivation is a total function). -/
theorem abilityCards_excludes_null_domain
    (cat : List CardIndex) (doms : List Dominio) (c : CardIndex)
    (hc : c ∈ abilityCards cat doms) :
    c.dominio ≠ none ∧ ∃ d ∈ doms, c.dominio = some d := by
  have h := List.mem_filter.mp hc
  obtain ⟨hsub, hdom⟩ := of_decide_eq_true h.2
  obtain ⟨d, hd, hdc⟩ := List.mem_map.mp hdom
  refine ⟨?_, d, hd, hdc.symm⟩
  rw [← hdc]
  simp

/-- C8 (witness): the exclusion theorem applied to a concrete catalog. -/
theorem abilityCards_excludes_null_domain_witness :
    exCard8 ∈ abilityCards [exCard8] [Dominio.lama] ∧
    (exCard8.dominio ≠ none ∧ ∃ d ∈ [Dominio.lama], exCard8.dominio = some d) :=
  ⟨by decide,
    abilityCards_excludes_null_domain [exCard8] [Dominio.lama] exCard8 (by decide)⟩

/-- C9 (confirmed): the add branch of `toggleDomain` (domain not yet
selected) appends the domain at the end of `selectedDomains` and leaves
every other field of the state unchanged. -/
theorem toggleDomain_add_frame (cat : List CardIndex) (s : SelectionState)
    (d : Dominio) (h : d ∉ s.selectedDomains) :
    (toggleDomain cat s d).selectedDomains = s.selectedDomains ++ [d] ∧
    (toggleDomain cat s d).characterName = s.characterName ∧
    (toggleDomain cat s d).className = s.className ∧
    (toggleDomain cat s d).selectedSubclass = s.selectedSubclass ∧
    (toggleDomain cat s d).selectedAbilities = s.selectedAbilities ∧
    (toggleDomain cat s d).selectedOrigin = s.selectedOrigin ∧
    (toggleDomain cat s d).selectedCommunity = s.selectedCommunity := by
  unfold toggleDomain
  rw [if_neg h]
  exact ⟨rfl, rfl, rfl, rfl, rfl, rfl, rfl⟩

/-- C9 (witness): the frame theorem applied to a concrete state. -/
theorem toggleDomain_add_frame_witness :
    Dominio.osso ∉ initialState.selectedDomains ∧
    (toggleDomain [] initialState Dominio.osso).selectedDomains =
      initialState.selectedDomains ++ [Dominio.osso] :=
  ⟨by decide, (toggleDomain_add_frame [] initialState Dominio.osso (by decide)).1⟩

/-- C10 (confirmed): `fromSave` installs the document's fields verbatim —
`selectedDomains` is exactly the document's array (no truncation to 2,
no check against the class pair) and `selectedAbilities` holds exactly
the elements of the document's array (no check against the catalog or
the selected domains). -/
theorem fromSave_installs_verbatim (doc : CharacterSave) :
    (fromSave doc).selectedDomains = doc.selectedDomains ∧
    (fromSave doc).className = some doc.className ∧
    (fromSave doc).selectedSubclass = doc.selectedSubclass ∧
    (fromSave doc).characterName = doc.characterName ∧
    (fromSave doc).selectedOrigin = doc.selectedOrigin ∧
    (fromSave doc).selectedCommunity = doc.selectedCommunity ∧
    (∀ x, x ∈ (fromSave doc).selectedAbilities ↔ x ∈ doc.selectedAbilities) :=
  ⟨rfl, rfl, rfl, rfl, rfl, rfl, fun _ => mem_dedupFirst⟩

/-- Example save document for the C10 witness: three domains (over the
cap) and abilities referencing no catalog. -/
def exDoc10 : CharacterSave :=
  { version := 1, exportDate := "2025-01-01T00:00:00.000Z"
    characterName := "X", className := "Bardo", selectedSubclass := none
    classCardIds := [], selectedDomains := [.grazia, .codice, .lama]
    selectedAbilities := ["ghost1", "ghost2"], selectedOrigin := none
    selectedCommunity := none }

/-- C10 (witness): the verbatim-install theorem applied to a concrete
document whose domain list exceeds the cap. -/
theorem fromSave_installs_verbatim_witness :
    (fromSave exDoc10).selectedDomains = exDoc10.selectedDomains ∧
    (fromSave exDoc10).className = some exDoc10.className ∧
    (fromSave exDoc10).selectedSubclass = exDoc10.selectedSubclass ∧
    (fromSave exDoc10).characterName = exDoc10.characterName ∧
    (fromSave exDoc10).selectedOrigin = exDoc10.selectedOrigin ∧
    (fromSave exDoc10).selectedCommunity = exDoc10.selectedCommunity ∧
    (∀ x, x ∈ (fromSave exDoc10).selectedAbilities ↔ x ∈ exDoc10.selectedAbilities) :=
  fromSave_installs_verbatim exDoc10

theorem count_filter_key {α : Type} [DecidableEq α] (key : α → Int)
    (L : List α) (a : α) (k : Int) :
    List.count a (L.filter (fun c => decide (key c = k)))
      = if key a = k then List.count a L else 0 := by
  by_cases h : key a = k
  · rw [if_pos h]
    exact List.count_filter (decide_eq_true h)
  · rw [if_neg h]
    refine List.count_eq_zero.mpr (fun hmem => ?_)
    exact h (of_decide_eq_true (List.mem_filter.mp hmem).2)

theorem count_flatten_buckets {α : Type} [DecidableEq α] (key : α → Int)
    (L : List α) (a : α) :
    ∀ (ks : List Int), ks.Nodup →
      List.count a ((ks.map (fun k => L.filter (fun c => decide (key c = k)))).flatten)
        = if key a ∈ ks then List.count a L else 0 := by
  intro ks
  induction ks with
  | nil => intro _; simp
  | cons k ks ih =>
    intro hnd
    rw [List.map_cons, List.flatten_cons, List.count_append,
      count_filter_key key L a k, ih (List.nodup_cons.mp hnd).2]
    by_cases hk : key a = k
    · have hnotin : key a ∉ ks := hk ▸ (List.nodup_cons.mp hnd).1
      rw [if_pos hk, if_neg hnotin, if_pos (List.mem_cons.mpr (Or.inl hk)), Nat.add_zero]
    · rw [if_neg hk, Nat.zero_add]
      by_cases hm : key a ∈ ks
      · rw [if_pos hm, if_pos (List.mem_cons_of_mem _ hm)]
      · rw [if_neg hm, if_neg (fun hc => (List.mem_cons.mp hc).elim hk hm)]

theorem mem_levels_iff (cat : List CardIndex) (doms : List Dominio) (k : Int) :
    k ∈ levels cat doms ↔ ∃ c ∈ abilityCards cat doms, levelKey c = k := by
  unfold levels
  rw [(List.perm_insertionSort _ _).mem_iff, mem_dedupFirst, List.mem_map]

theorem nodup_levels (cat : List CardIndex) (doms : List Dominio) :
    (levels cat doms).Nodup := by
  unfold levels
  exact ((List.perm_insertionSort _ _).nodup_iff).mpr (nodup_dedupFirst _)

theorem sorted_levels (cat : List CardIndex) (doms : List Dominio) :
    (levels cat doms).Sorted (· < ·) := by
  have hle : (levels cat doms).Sorted (· ≤ ·) := List.sorted_insertionSort _ _
  exact hle.lt_of_le (nodup_levels cat doms)

/-- C7 (confirmed): `cardsByLevel` is an exact partition of
`abilityCards` — flattening the buckets over `levels` is a permutation
of `abilityCards` (no card lost or duplicated), every bucket member is
an ability card whose key (`livello ?? 0`) is the bucket's key, `levels`
is strictly ascending (hence duplicate-free), and its members are
exactly the occurring bucket keys. -/
theorem cardsByLevel_partitions_abilityCards (cat : List CardIndex) (doms : List Dominio) :
    (((levels cat doms).map (fun k => cardsByLevel cat doms k)).flatten).Perm
        (abilityCards cat doms) ∧
    (∀ k c, c ∈ cardsByLevel cat doms k →
        c ∈ abilityCards cat doms ∧ levelKey c = k) ∧
    (levels cat doms).Sorted (· < ·) ∧
    (∀ k, k ∈ levels cat doms ↔ ∃ c ∈ abilityCards cat doms, levelKey c = k) := by
  refine ⟨?_, ?_, sorted_levels cat doms, fun k => mem_levels_iff cat doms k⟩
  · rw [List.perm_iff_count]
    intro a
    simp only [cardsByLevel]
    rw [count_flatten_buckets levelKey (abilityCards cat doms) a _ (nodup_levels cat doms)]
    by_cases hm : levelKey a ∈ levels cat doms
    · rw [if_pos hm]
    · rw [if_neg hm]
      have ha : a ∉ abilityCards cat doms :=
        fun ha => hm ((mem_levels_iff cat doms _).mpr ⟨a, ha, rfl⟩)
      exact (List.count_eq_zero_of_not_mem ha).symm
  · intro k c hc
    have h := List.mem_filter.mp hc
    exact ⟨h.1, of_decide_eq_true h.2⟩

/-- Example catalog card for the C7 witness (the spec's scenario card,
with `fire` read as the domain `lama`). -/
def exCard7 : CardIndex :=
  { id := "c7", nome := "C7", categoria := .dominio, dominio := some .lama
    sottocategoria := some .abilita, tipo_carta := none, livello := some 1
    soglia := none, pagina := 3, img := "c7.png", json := "c7.json" }

/-- C7 (witness): the partition theorem applied to a concrete catalog. -/
theorem cardsByLevel_partitions_witness :
    (((levels [exCard7] [Dominio.lama]).map
        (fun k => cardsByLevel [exCard7] [Dominio.lama] k)).flatten).Perm
        (abilityCards [exCard7] [Dominio.lama]) ∧
    (∀ k c, c ∈ cardsByLevel [exCard7] [Dominio.lama] k →
        c ∈ abilityCards [exCard7] [Dominio.lama] ∧ levelKey c = k) ∧
    (levels [exCard7] [Dominio.lama]).Sorted (· < ·) ∧
    (∀ k, k ∈ levels [exCard7] [Dominio.lama] ↔
        ∃ c ∈ abilityCards [exCard7] [Dominio.lama], levelKey c = k) :=
  cardsByLevel_partitions_abilityCards [exCard7] [Dominio.lama]

end Daggerheart
